import Mathlib

/-!
Verification development for the stui terminal UI library (src/stui.h).

The definitions below are a shallow embedding of the C++ code:
machine `int` values become `Int`, flat `Tixel*` buffers become
`List Tixel` with row-major indexing, virtual child widgets become
records of their size queries plus a buffer-transforming draw function,
and C++ function-pointer callbacks become opaque numeric identifiers
whose invocations are recorded in a trace list.  Loops with in-loop
index manipulation are modelled by structural recursion; the layout
waterfill `while` loop, which has no a-priori bound in the source, is
modelled with an explicit fuel parameter.
-/

/-- Two-dimensional integer coordinate pair (`stui::Coordinate`). -/
structure Coordinate where
  x : Int
  y : Int
deriving DecidableEq, Repr

/-- One terminal cell: a code point plus a packed colour command byte
(`stui::Tixel`).  The colour packs a foreground nibble (low 4 bits) and
a background nibble (high 4 bits). -/
structure Tixel where
  character : Nat
  colour : Nat
deriving DecidableEq, Repr

/-- Default cell used for out-of-range reads of a buffer; the concrete
value is irrelevant because all proved statements stay in range. -/
def blankTixel : Tixel := ⟨32, 31⟩

/-- The packed default colour `BG_BLACK | FG_WHITE` returned by
`Utility::getDefaultColour` (16 ∣ 15 = 31). -/
def getDefaultColour : Nat := 31

/-- Buffer allocation (`Utility::makeBuffer`): `width*height` cells all
initialised to a space with the default colour; a non-positive request
yields no buffer (the C++ returns `nullptr`, modelled as `[]`).  The
extra null-terminator cell the C++ appends lies beyond the
`width*height` canvas extent and is not part of the canvas. -/
def makeBuffer (buffer_size : Coordinate) : List Tixel :=
  if buffer_size.x ≤ 0 ∨ buffer_size.y ≤ 0 then []
  else List.replicate (buffer_size.x.toNat * buffer_size.y.toNat) ⟨32, getDefaultColour⟩

/-- One row of `Utility::copyBox`: the `memcpy` that copies `n` cells
from `src` starting at flat index `srcBase` into `dst` starting at flat
index `dstBase`. -/
def copyRow (src : List Tixel) (srcBase : Nat) (dst : List Tixel) (dstBase : Nat) : Nat → List Tixel
  | 0 => dst
  | n + 1 => (copyRow src srcBase dst dstBase n).set (dstBase + n) (src.getD (srcBase + n) blankTixel)

/-- The row loop of `Utility::copyBox`: for each `y` below the row
count, one `memcpy` of `ax` cells, with the flat base indices computed
exactly as in the source (`offset.x + (y + offset.y) * size.x`). -/
def copyBoxLoop (src : List Tixel) (srcW sbx sby ax : Nat) (dst : List Tixel) (dstW dbx dby : Nat) : Nat → List Tixel
  | 0 => dst
  | y + 1 =>
    copyRow src (sbx + (y + sby) * srcW)
      (copyBoxLoop src srcW sbx sby ax dst dstW dbx dby y)
      (dbx + (y + dby) * dstW) ax

/-- Clipped rectangular copy (`Utility::copyBox`).  The guard chain is
the one in the source: non-positive area, negative offsets, or a
rectangle overflowing either buffer make the call return the
destination untouched; otherwise the row loop copies the rectangle. -/
def copyBox (src : List Tixel) (src_size src_offset area_size : Coordinate)
    (dst : List Tixel) (dst_size dst_offset : Coordinate) : List Tixel :=
  if area_size.x ≤ 0 ∨ area_size.y ≤ 0 then dst
  else if src_offset.x < 0 ∨ src_offset.y < 0 then dst
  else if dst_offset.x < 0 ∨ dst_offset.y < 0 then dst
  else if src_size.x < src_offset.x + area_size.x ∨ src_size.y < src_offset.y + area_size.y then dst
  else if dst_size.x < dst_offset.x + area_size.x ∨ dst_size.y < dst_offset.y + area_size.y then dst
  else
    copyBoxLoop src src_size.x.toNat src_offset.x.toNat src_offset.y.toNat area_size.x.toNat
      dst dst_size.x.toNat dst_offset.x.toNat dst_offset.y.toNat area_size.y.toNat

/-- The geometry precondition stated by the spec for `copyBox`: the
`area_size` rectangle placed at `src_offset` lies entirely inside the
source canvas and placed at `dst_offset` entirely inside the
destination canvas, with a positive area and non-negative offsets. -/
def fitsInside (src_size src_offset area_size dst_size dst_offset : Coordinate) : Prop :=
  0 < area_size.x ∧ 0 < area_size.y ∧
  0 ≤ src_offset.x ∧ 0 ≤ src_offset.y ∧
  0 ≤ dst_offset.x ∧ 0 ≤ dst_offset.y ∧
  src_offset.x + area_size.x ≤ src_size.x ∧ src_offset.y + area_size.y ≤ src_size.y ∧
  dst_offset.x + area_size.x ≤ dst_size.x ∧ dst_offset.y + area_size.y ≤ dst_size.y

instance (a b c d e : Coordinate) : Decidable (fitsInside a b c d e) := by
  unfold fitsInside
  infer_instance

/-- The `memcpy` row keeps the destination length. -/
theorem copyRow_length (src : List Tixel) (sb : Nat) (dst : List Tixel) (db : Nat) :
    ∀ n, (copyRow src sb dst db n).length = dst.length
  | 0 => rfl
  | n + 1 => by simp [copyRow, copyRow_length src sb dst db n]

/-- Pointwise description of one copied row: indices inside the written
window read from the source, all others read the old destination. -/
theorem copyRow_getElem? (src : List Tixel) (sb : Nat) (dst : List Tixel) (db : Nat) (n j : Nat) :
    (copyRow src sb dst db n)[j]? =
      if db ≤ j ∧ j < db + n ∧ j < dst.length then
        some (src.getD (sb + (j - db)) blankTixel)
      else dst[j]? := by
  induction n with
  | zero =>
    have h : ¬ (db ≤ j ∧ j < db ∧ j < dst.length) := by omega
    simp [copyRow, h]
  | succ n ih =>
    rw [copyRow, List.getElem?_set]
    by_cases hj : db + n = j
    · rw [if_pos hj, copyRow_length]
      by_cases hl : j < dst.length
      · rw [if_pos (by omega : db + n < dst.length),
          if_pos ⟨by omega, by omega, hl⟩]
        have hx : sb + n = sb + (j - db) := by omega
        rw [hx]
      · rw [if_neg (by omega : ¬ db + n < dst.length),
          if_neg (by omega : ¬ (db ≤ j ∧ j < db + (n + 1) ∧ j < dst.length))]
        exact (List.getElem?_eq_none (by omega)).symm
    · rw [if_neg hj, ih]
      by_cases hc : db ≤ j ∧ j < db + n ∧ j < dst.length
      · rw [if_pos hc, if_pos ⟨hc.1, by omega, hc.2.2⟩]
      · rw [if_neg hc, if_neg (by omega : ¬ (db ≤ j ∧ j < db + (n + 1) ∧ j < dst.length))]

/-- The row loop keeps the destination length. -/
theorem copyBoxLoop_length (src : List Tixel) (srcW sbx sby ax : Nat) (dst : List Tixel)
    (dstW dbx dby : Nat) :
    ∀ n, (copyBoxLoop src srcW sbx sby ax dst dstW dbx dby n).length = dst.length
  | 0 => rfl
  | n + 1 => by
    simp [copyBoxLoop, copyRow_length,
      copyBoxLoop_length src srcW sbx sby ax dst dstW dbx dby n]

/-- Inside the copied rectangle, the destination after the row loop
holds exactly the corresponding source cell. -/
theorem copyBoxLoop_getElem?_covered (src : List Tixel) (srcW sbx sby ax : Nat)
    (dst : List Tixel) (dstW dbx dby : Nat) (n : Nat)
    (hax : dbx + ax ≤ dstW) :
    ∀ x y : Nat, x < ax → y < n → dbx + x + (y + dby) * dstW < dst.length →
      (copyBoxLoop src srcW sbx sby ax dst dstW dbx dby n)[dbx + x + (y + dby) * dstW]? =
        some (src.getD (sbx + x + (y + sby) * srcW) blankTixel) := by
  induction n with
  | zero => intro x y _ hy _; omega
  | succ n ih =>
    intro x y hx hy hlen
    rw [copyBoxLoop, copyRow_getElem?, copyBoxLoop_length]
    by_cases hyn : y = n
    · subst hyn
      rw [if_pos ⟨by omega, by omega, hlen⟩]
      have hidx : sbx + (y + sby) * srcW + (dbx + x + (y + dby) * dstW - (dbx + (y + dby) * dstW))
          = sbx + x + (y + sby) * srcW := by omega
      rw [hidx]
    · have hmul : (y + dby + 1) * dstW ≤ (n + dby) * dstW :=
        Nat.mul_le_mul_right dstW (by omega)
      have hsm : (y + dby + 1) * dstW = (y + dby) * dstW + dstW := by ring
      rw [if_neg (by omega : ¬ (dbx + (n + dby) * dstW ≤ dbx + x + (y + dby) * dstW ∧
          dbx + x + (y + dby) * dstW < dbx + (n + dby) * dstW + ax ∧
          dbx + x + (y + dby) * dstW < dst.length))]
      exact ih x y hx (by omega) hlen

/-- Copying a whole buffer onto itself at the origin is the identity. -/
theorem copyBoxLoop_self (cells : List Tixel) (W H : Nat) (hW : 0 < W)
    (hlen : cells.length = W * H) :
    copyBoxLoop cells W 0 0 W cells W 0 0 H = cells := by
  apply List.ext_getElem?
  intro j
  by_cases hj : j < cells.length
  · have hx : j % W < W := Nat.mod_lt _ hW
    have hyH : j / W < H := by
      have h2 : j < H * W := by
        have h3 : W * H = H * W := by ring
        omega
      exact Nat.div_lt_iff_lt_mul hW |>.mpr h2
    have hidx : 0 + j % W + (j / W + 0) * W = j := by
      simp only [Nat.zero_add, Nat.add_zero]
      exact Nat.mod_add_div' j W
    have hlt : 0 + j % W + (j / W + 0) * W < cells.length := by rw [hidx]; exact hj
    have hcov := copyBoxLoop_getElem?_covered cells W 0 0 W cells W 0 0 H (by omega)
      (j % W) (j / W) hx hyH hlt
    rw [hidx] at hcov
    rw [hcov, List.getD_eq_getElem?_getD, List.getElem?_eq_getElem hj]
    rfl
  · have hl := copyBoxLoop_length cells W 0 0 W cells W 0 0 H
    have h1 : (copyBoxLoop cells W 0 0 W cells W 0 0 H)[j]? = none :=
      List.getElem?_eq_none (by omega)
    have h2 : cells[j]? = (none : Option Tixel) := List.getElem?_eq_none (by omega)
    rw [h1, h2]

/-- C8: any `copyBox` request whose rectangle does not fit entirely
inside both the source and the destination canvas — including
non-positive area sizes and negative offsets — leaves the destination
buffer completely unchanged (a silent, unclamped no-op). -/
theorem claim8_copyBox_out_of_range_noop
    (src : List Tixel) (src_size src_offset area_size : Coordinate)
    (dst : List Tixel) (dst_size dst_offset : Coordinate)
    (h : ¬ fitsInside src_size src_offset area_size dst_size dst_offset) :
    copyBox src src_size src_offset area_size dst dst_size dst_offset = dst := by
  unfold copyBox
  by_cases h1 : area_size.x ≤ 0 ∨ area_size.y ≤ 0
  · rw [if_pos h1]
  · rw [if_neg h1]
    by_cases h2 : src_offset.x < 0 ∨ src_offset.y < 0
    · rw [if_pos h2]
    · rw [if_neg h2]
      by_cases h3 : dst_offset.x < 0 ∨ dst_offset.y < 0
      · rw [if_pos h3]
      · rw [if_neg h3]
        by_cases h4 : src_size.x < src_offset.x + area_size.x ∨
            src_size.y < src_offset.y + area_size.y
        · rw [if_pos h4]
        · rw [if_neg h4]
          by_cases h5 : dst_size.x < dst_offset.x + area_size.x ∨
              dst_size.y < dst_offset.y + area_size.y
          · rw [if_pos h5]
          · exfalso
            refine h ?_
            unfold fitsInside
            push_neg at h1 h2 h3 h4 h5
            omega

/-- Concrete instance of C8: an area of width 2 cannot fit in a 1×1
source, and the 1×1 destination is returned untouched. -/
theorem claim8_witness :
    ¬ fitsInside ⟨1, 1⟩ ⟨0, 0⟩ ⟨2, 1⟩ ⟨1, 1⟩ ⟨0, 0⟩ ∧
    copyBox [blankTixel] ⟨1, 1⟩ ⟨0, 0⟩ ⟨2, 1⟩ [⟨65, 31⟩] ⟨1, 1⟩ ⟨0, 0⟩ = [⟨65, 31⟩] :=
  ⟨by decide, claim8_copyBox_out_of_range_noop _ _ _ _ _ _ _ (by decide)⟩

/-- C9: copying a canvas into itself at offset (0,0) with its own size
is the identity, and for any in-range sub-rectangle copy the copied
region of the destination afterwards equals the corresponding source
region cell-for-cell. -/
theorem claim9_copyBox_identity_and_readback :
    (∀ (cells : List Tixel) (sz : Coordinate),
        0 < sz.x → 0 < sz.y → cells.length = sz.x.toNat * sz.y.toNat →
        copyBox cells sz ⟨0, 0⟩ sz cells sz ⟨0, 0⟩ = cells) ∧
    (∀ (src : List Tixel) (src_size src_offset area_size : Coordinate)
        (dst : List Tixel) (dst_size dst_offset : Coordinate),
        fitsInside src_size src_offset area_size dst_size dst_offset →
        dst.length = dst_size.x.toNat * dst_size.y.toNat →
        ∀ x y : Nat, x < area_size.x.toNat → y < area_size.y.toNat →
          (copyBox src src_size src_offset area_size dst dst_size dst_offset).getD
              (dst_offset.x.toNat + x + (y + dst_offset.y.toNat) * dst_size.x.toNat) blankTixel =
            src.getD (src_offset.x.toNat + x + (y + src_offset.y.toNat) * src_size.x.toNat)
              blankTixel) := by
  constructor
  · intro cells sz hx hy hlen
    unfold copyBox
    dsimp only
    rw [if_neg (by omega), if_neg (by omega), if_neg (by omega),
      if_neg (by omega), if_neg (by omega)]
    simp only [Int.toNat_zero]
    exact copyBoxLoop_self cells sz.x.toNat sz.y.toNat (by omega) hlen
  · intro src ssz soff asz dst dsz doff hfit hdlen x y hx hy
    obtain ⟨a1, a2, a3, a4, a5, a6, a7, a8, a9, a10⟩ := hfit
    unfold copyBox
    rw [if_neg (by omega), if_neg (by omega), if_neg (by omega),
      if_neg (by omega), if_neg (by omega)]
    rw [List.getD_eq_getElem?_getD]
    have hax : doff.x.toNat + asz.x.toNat ≤ dsz.x.toNat := by omega
    have hlen : doff.x.toNat + x + (y + doff.y.toNat) * dsz.x.toNat < dst.length := by
      have h1 : y + doff.y.toNat + 1 ≤ dsz.y.toNat := by omega
      have h2 : (y + doff.y.toNat + 1) * dsz.x.toNat ≤ dsz.y.toNat * dsz.x.toNat :=
        Nat.mul_le_mul_right _ h1
      have h3 : (y + doff.y.toNat + 1) * dsz.x.toNat
          = (y + doff.y.toNat) * dsz.x.toNat + dsz.x.toNat := by ring
      have h4 : dsz.x.toNat * dsz.y.toNat = dsz.y.toNat * dsz.x.toNat := by ring
      omega
    rw [copyBoxLoop_getElem?_covered src ssz.x.toNat soff.x.toNat soff.y.toNat asz.x.toNat
      dst dsz.x.toNat doff.x.toNat doff.y.toNat asz.y.toNat hax x y hx hy hlen]
    rfl

/-- Concrete instance of C9: a 2×1 self-copy reproduces the buffer, and
a 1×1 sub-rectangle copied from a 2×2 source into a 2×2 destination at
offset (1,1) reads back the source cell. -/
theorem claim9_witness :
    copyBox [⟨65, 1⟩, ⟨66, 2⟩] ⟨2, 1⟩ ⟨0, 0⟩ ⟨2, 1⟩ [⟨65, 1⟩, ⟨66, 2⟩] ⟨2, 1⟩ ⟨0, 0⟩
        = [⟨65, 1⟩, ⟨66, 2⟩] ∧
    (copyBox [⟨1, 1⟩, ⟨2, 2⟩, ⟨3, 3⟩, ⟨4, 4⟩] ⟨2, 2⟩ ⟨0, 0⟩ ⟨1, 1⟩
        [⟨5, 5⟩, ⟨6, 6⟩, ⟨7, 7⟩, ⟨8, 8⟩] ⟨2, 2⟩ ⟨1, 1⟩).getD (1 + 0 + (0 + 1) * 2) blankTixel =
      List.getD [⟨1, 1⟩, ⟨2, 2⟩, ⟨3, 3⟩, ⟨4, 4⟩] (0 + 0 + (0 + 0) * 2) blankTixel :=
  ⟨claim9_copyBox_identity_and_readback.1 _ _ (by decide) (by decide) (by decide),
   claim9_copyBox_identity_and_readback.2 _ _ _ _ _ _ _ (by decide) (by decide) 0 0
     (by decide) (by decide)⟩

/-- A child widget as a layout container sees it: its `getMinSize` and
`getMaxSize` answers plus its `render` behaviour, modelled as a
function from the freshly allocated buffer and negotiated size to the
buffer contents after drawing. -/
structure ChildSpec where
  minSize : Coordinate
  maxSize : Coordinate
  draw : List Tixel → Coordinate → List Tixel

/-- One pass of the inner `for` loop of the waterfill in
`VerticalBox::render` / `HorizontalBox::render`, over the list of
(calculated, max) size pairs: a child whose calculated size has reached
a bounded max is skipped, any other child is granted one unit with the
budget decremented, and the pass breaks the instant the budget hits
zero, leaving the remaining children untouched. -/
def sweepPass (budget : Int) : List (Int × Int) → Int × List (Int × Int)
  | [] => (budget, [])
  | (c, m) :: rest =>
    if c ≥ m ∧ m ≠ -1 then
      let r := sweepPass budget rest
      (r.1, (c, m) :: r.2)
    else
      if budget - 1 = 0 then (0, (c + 1, m) :: rest)
      else
        let r := sweepPass (budget - 1) rest
        (r.1, (c + 1, m) :: r.2)

/-- The `while (budget > 0)` waterfill loop of the two linear
containers, modelled with an explicit iteration fuel: each iteration
with positive budget runs one sweep over the children and repeats on
the sweep's result.  The source loop has no other exit. -/
def waterfill : Nat → Int → List (Int × Int) → Int × List (Int × Int)
  | 0, budget, cm => (budget, cm)
  | fuel + 1, budget, cm =>
    if budget > 0 then
      let r := sweepPass budget cm
      waterfill fuel r.1 r.2
    else (budget, cm)

/-- Unfolding equation for one `while` iteration. -/
theorem waterfill_succ (fuel : Nat) (budget : Int) (cm : List (Int × Int)) :
    waterfill (fuel + 1) budget cm =
      if budget > 0 then waterfill fuel (sweepPass budget cm).1 (sweepPass budget cm).2
      else (budget, cm) := rfl

/-- Once the budget is exhausted the loop exits regardless of fuel. -/
theorem waterfill_nonpos (fuel : Nat) (budget : Int) (cm : List (Int × Int))
    (h : budget ≤ 0) : waterfill fuel budget cm = (budget, cm) := by
  cases fuel with
  | zero => rfl
  | succ n => rw [waterfill_succ, if_neg (by omega)]

/-- `VerticalBox::render`: query child minima and maxima on the packing
axis, compute the budget, return with the buffer untouched if it is
negative, otherwise waterfill the budget over the children and
composite each child — drawn into a fresh `makeBuffer` canvas of its
negotiated size — into the output buffer at the running y offset via
`copyBox`. -/
def vboxRender (fuel : Nat) (children : List ChildSpec) (output_buffer : List Tixel)
    (size : Coordinate) : List Tixel :=
  let min_heights := children.map (fun c => c.minSize.y)
  let max_heights := children.map (fun c => c.maxSize.y)
  let total_height := min_heights.sum
  let budget := size.y - total_height
  if budget < 0 then output_buffer
  else
    let calculated_heights := ((waterfill fuel budget (min_heights.zip max_heights)).2).map Prod.fst
    ((children.zip calculated_heights).foldl
      (fun acc ch =>
        let component_size : Coordinate :=
          ⟨if ch.1.maxSize.x = -1 then size.x else min size.x ch.1.maxSize.x, ch.2⟩
        let component_buffer := ch.1.draw (makeBuffer component_size) component_size
        (copyBox component_buffer component_size ⟨0, 0⟩ component_size acc.1 size ⟨0, acc.2⟩,
         acc.2 + component_size.y))
      (output_buffer, (0 : Int))).1

/-- The negotiation prologue of `HorizontalBox::render`: child minimum
and maximum widths, budget from the available width, and the waterfill
result — the `calculated_widths` vector the composition loop then
uses. -/
def hboxCalculatedWidths (fuel : Nat) (children : List ChildSpec) (size : Coordinate) :
    List Int :=
  let min_widths := children.map (fun c => c.minSize.x)
  let max_widths := children.map (fun c => c.maxSize.x)
  let total_width := min_widths.sum
  let budget := size.x - total_width
  ((waterfill fuel budget (min_widths.zip max_widths)).2).map Prod.fst

/-- `HorizontalBox::render`, the axis mirror of `vboxRender`. -/
def hboxRender (fuel : Nat) (children : List ChildSpec) (output_buffer : List Tixel)
    (size : Coordinate) : List Tixel :=
  let budget := size.x - (children.map (fun c => c.minSize.x)).sum
  if budget < 0 then output_buffer
  else
    let calculated_widths := hboxCalculatedWidths fuel children size
    ((children.zip calculated_widths).foldl
      (fun acc ch =>
        let component_size : Coordinate :=
          ⟨ch.2, if ch.1.maxSize.y = -1 then size.y else min size.y ch.1.maxSize.y⟩
        let component_buffer := ch.1.draw (makeBuffer component_size) component_size
        (copyBox component_buffer component_size ⟨0, 0⟩ component_size acc.1 size ⟨acc.2, 0⟩,
         acc.2 + component_size.x))
      (output_buffer, (0 : Int))).1

/-- C1 (code evaluated at the failing input): `VerticalBox::render` in
`src/stui.h` with one child of minimum size (1,2), given available size
(5,1), has budget 1 − 2 = −1 < 0 and returns immediately: for every
fuel and every output buffer, the buffer is left completely unchanged,
so no child and no placeholder is drawn — whereas the claim expects a
centered "too small" placeholder in the buffer. -/
theorem claim1_negative_budget_draws_nothing (fuel : Nat) (output_buffer : List Tixel) :
    vboxRender fuel [⟨⟨1, 2⟩, ⟨1, 2⟩, fun b _ => b⟩] output_buffer ⟨5, 1⟩ = output_buffer := by
  rw [vboxRender]
  rw [if_pos (by decide : ((⟨5, 1⟩ : Coordinate).y -
    ([(⟨⟨1, 2⟩, ⟨1, 2⟩, fun b _ => b⟩ : ChildSpec)].map (fun c => c.minSize.y)).sum < 0))]

/-- C2 (code evaluated at the failing input): the waterfill loop of the
linear containers in `src/stui.h`, started with budget 2 and a single
child whose calculated size already equals its bounded maximum
(min = max = 1), makes no progress: every sweep grants nothing, yet the
loop repeats, so after any number of iterations the budget is still
2 > 0 and the `while (budget > 0)` guard never becomes false — the loop
never terminates, where the claim says it stops when a full sweep
grants nothing. -/
theorem claim2_waterfill_no_progress_loops_forever (fuel : Nat) :
    waterfill fuel 2 [(1, 1)] = (2, [(1, 1)]) := by
  induction fuel with
  | zero => rfl
  | succ n ih =>
    rw [waterfill_succ, if_pos (by decide : (2 : Int) > 0),
      (by decide : sweepPass 2 [((1 : Int), (1 : Int))] = (2, [(1, 1)]))]
    exact ih

/-- C3: a `HorizontalBox` with two children of min/max widths
4/unbounded and 4/4 (heights 1), given available width 10, negotiates
calculated widths 6 and 4: baseline 8 leaves budget 2, the first sweep
grants the first child one unit (the second is at its bounded max), and
the second sweep grants it another, exhausting the budget.  The result
holds for every fuel large enough to let the loop run to completion
(two iterations). -/
theorem claim3_hbox_negotiates_6_4 (fuel : Nat) (h : 2 ≤ fuel) :
    hboxCalculatedWidths fuel
      [⟨⟨4, 1⟩, ⟨-1, 1⟩, fun b _ => b⟩, ⟨⟨4, 1⟩, ⟨4, 1⟩, fun b _ => b⟩] ⟨10, 1⟩ = [6, 4] := by
  obtain ⟨k, rfl⟩ : ∃ k, fuel = k + 2 := ⟨fuel - 2, by omega⟩
  show ((waterfill (k + 2) 2 [((4 : Int), (-1 : Int)), (4, 4)]).2).map Prod.fst = [6, 4]
  rw [waterfill_succ, if_pos (by decide : (2 : Int) > 0),
    (by decide : sweepPass 2 [((4 : Int), (-1 : Int)), (4, 4)] = (1, [(5, -1), (4, 4)]))]
  show ((waterfill (k + 1) 1 [((5 : Int), (-1 : Int)), (4, 4)]).2).map Prod.fst = [6, 4]
  rw [waterfill_succ, if_pos (by decide : (1 : Int) > 0),
    (by decide : sweepPass 1 [((5 : Int), (-1 : Int)), (4, 4)] = (0, [(6, -1), (4, 4)]))]
  show ((waterfill k 0 [((6 : Int), (-1 : Int)), (4, 4)]).2).map Prod.fst = [6, 4]
  rw [waterfill_nonpos k 0 _ (by decide)]
  rfl

/-- Concrete instance of C3 at the smallest sufficient fuel. -/
theorem claim3_witness :
    2 ≤ 2 ∧
    hboxCalculatedWidths 2
      [⟨⟨4, 1⟩, ⟨-1, 1⟩, fun b _ => b⟩, ⟨⟨4, 1⟩, ⟨4, 1⟩, fun b _ => b⟩] ⟨10, 1⟩ = [6, 4] :=
  ⟨by decide, claim3_hbox_negotiates_6_4 2 (by decide)⟩

/-- Modifier bit for the control key (`Input::ControlKeys::CTRL`). -/
def CTRL : Nat := 1

/-- Modifier bit for the shift key (`Input::ControlKeys::SHIFT`). -/
def SHIFT : Nat := 2

/-- Modifier bit for the alt key (`Input::ControlKeys::ALT`). -/
def ALT : Nat := 4

/-- A decoded key event (`Input::Key`): 16-bit logical key code plus a
modifier bitmask (`NONE` is 0). -/
structure Key where
  key : Nat
  control_states : Nat
deriving DecidableEq, Repr

/-- Arrow key logical code `Input::ArrowKeys::UP` (0x11). -/
def arrowUP : Nat := 17

/-- Arrow key logical code `Input::ArrowKeys::DOWN` (0x12). -/
def arrowDOWN : Nat := 18

/-- Arrow key logical code `Input::ArrowKeys::LEFT` (0x13). -/
def arrowLEFT : Nat := 19

/-- Arrow key logical code `Input::ArrowKeys::RIGHT` (0x14). -/
def arrowRIGHT : Nat := 20

/-- The 128-entry static byte table `Input::linux_keymap`, written as
its sixteen source rows of eight entries: each plain byte 0-127 maps to
a (key, modifiers) pair. -/
def keymapRow0 : List Key :=
  [⟨32, CTRL⟩, ⟨65, CTRL⟩, ⟨66, CTRL⟩, ⟨67, CTRL⟩, ⟨68, CTRL⟩, ⟨69, CTRL⟩, ⟨70, CTRL⟩, ⟨71, CTRL⟩]

/-- Keymap bytes 0x08 to 0x0F. -/
def keymapRow1 : List Key :=
  [⟨8, 0⟩, ⟨9, 0⟩, ⟨10, 0⟩, ⟨75, CTRL⟩, ⟨76, CTRL⟩, ⟨77, CTRL⟩, ⟨78, CTRL⟩, ⟨79, CTRL⟩]

/-- Keymap bytes 0x10 to 0x17. -/
def keymapRow2 : List Key :=
  [⟨80, CTRL⟩, ⟨81, CTRL⟩, ⟨82, CTRL⟩, ⟨83, CTRL⟩, ⟨84, CTRL⟩, ⟨85, CTRL⟩, ⟨86, CTRL⟩, ⟨87, CTRL⟩]

/-- Keymap bytes 0x18 to 0x1F. -/
def keymapRow3 : List Key :=
  [⟨88, CTRL⟩, ⟨89, CTRL⟩, ⟨90, CTRL⟩, ⟨27, 0⟩, ⟨28, 0⟩, ⟨29, 0⟩, ⟨30, 0⟩, ⟨31, 0⟩]

/-- Keymap bytes 0x20 to 0x27. -/
def keymapRow4 : List Key :=
  [⟨32, 0⟩, ⟨33, SHIFT⟩, ⟨34, SHIFT⟩, ⟨35, 0⟩, ⟨36, SHIFT⟩, ⟨37, SHIFT⟩, ⟨38, SHIFT⟩, ⟨39, 0⟩]

/-- Keymap bytes 0x28 to 0x2F. -/
def keymapRow5 : List Key :=
  [⟨40, SHIFT⟩, ⟨41, SHIFT⟩, ⟨42, SHIFT⟩, ⟨43, SHIFT⟩, ⟨44, 0⟩, ⟨45, 0⟩, ⟨46, 0⟩, ⟨47, 0⟩]

/-- Keymap bytes 0x30 to 0x37. -/
def keymapRow6 : List Key :=
  [⟨48, 0⟩, ⟨49, 0⟩, ⟨50, 0⟩, ⟨51, 0⟩, ⟨52, 0⟩, ⟨53, 0⟩, ⟨54, 0⟩, ⟨55, 0⟩]

/-- Keymap bytes 0x38 to 0x3F. -/
def keymapRow7 : List Key :=
  [⟨56, 0⟩, ⟨57, 0⟩, ⟨58, SHIFT⟩, ⟨59, 0⟩, ⟨60, SHIFT⟩, ⟨61, 0⟩, ⟨62, SHIFT⟩, ⟨63, SHIFT⟩]

/-- Keymap bytes 0x40 to 0x47. -/
def keymapRow8 : List Key :=
  [⟨64, SHIFT⟩, ⟨65, SHIFT⟩, ⟨66, SHIFT⟩, ⟨67, SHIFT⟩, ⟨68, SHIFT⟩, ⟨69, SHIFT⟩, ⟨70, SHIFT⟩, ⟨71, SHIFT⟩]

/-- Keymap bytes 0x48 to 0x4F. -/
def keymapRow9 : List Key :=
  [⟨72, SHIFT⟩, ⟨73, SHIFT⟩, ⟨74, SHIFT⟩, ⟨75, SHIFT⟩, ⟨76, SHIFT⟩, ⟨77, SHIFT⟩, ⟨78, SHIFT⟩, ⟨79, SHIFT⟩]

/-- Keymap bytes 0x50 to 0x57. -/
def keymapRow10 : List Key :=
  [⟨80, SHIFT⟩, ⟨81, SHIFT⟩, ⟨82, SHIFT⟩, ⟨83, SHIFT⟩, ⟨84, SHIFT⟩, ⟨85, SHIFT⟩, ⟨86, SHIFT⟩, ⟨87, SHIFT⟩]

/-- Keymap bytes 0x58 to 0x5F. -/
def keymapRow11 : List Key :=
  [⟨88, SHIFT⟩, ⟨89, SHIFT⟩, ⟨90, SHIFT⟩, ⟨91, 0⟩, ⟨92, 0⟩, ⟨93, 0⟩, ⟨94, SHIFT⟩, ⟨95, SHIFT⟩]

/-- Keymap bytes 0x60 to 0x67. -/
def keymapRow12 : List Key :=
  [⟨96, 0⟩, ⟨97, 0⟩, ⟨98, 0⟩, ⟨99, 0⟩, ⟨100, 0⟩, ⟨101, 0⟩, ⟨102, 0⟩, ⟨103, 0⟩]

/-- Keymap bytes 0x68 to 0x6F. -/
def keymapRow13 : List Key :=
  [⟨104, 0⟩, ⟨105, 0⟩, ⟨106, 0⟩, ⟨107, 0⟩, ⟨108, 0⟩, ⟨109, 0⟩, ⟨110, 0⟩, ⟨111, 0⟩]

/-- Keymap bytes 0x70 to 0x77. -/
def keymapRow14 : List Key :=
  [⟨112, 0⟩, ⟨113, 0⟩, ⟨114, 0⟩, ⟨115, 0⟩, ⟨116, 0⟩, ⟨117, 0⟩, ⟨118, 0⟩, ⟨119, 0⟩]

/-- Keymap bytes 0x78 to 0x7F. -/
def keymapRow15 : List Key :=
  [⟨120, 0⟩, ⟨121, 0⟩, ⟨122, 0⟩, ⟨123, SHIFT⟩, ⟨124, SHIFT⟩, ⟨125, SHIFT⟩, ⟨126, SHIFT⟩, ⟨8, 0⟩]

/-- The whole table in byte order. -/
def linuxKeymapTable : List Key :=
  keymapRow0 ++ keymapRow1 ++ keymapRow2 ++ keymapRow3 ++ keymapRow4 ++ keymapRow5 ++
  keymapRow6 ++ keymapRow7 ++ keymapRow8 ++ keymapRow9 ++ keymapRow10 ++ keymapRow11 ++
  keymapRow12 ++ keymapRow13 ++ keymapRow14 ++ keymapRow15

/-- Lookup into `Input::linux_keymap`; the source only indexes it with
bytes below 128. -/
def linuxKeymap (c : Nat) : Key := linuxKeymapTable.getD c ⟨8, 0⟩

/-- The byte-stream decoding loop of `Input::getQueuedKeyEvents`
(`__linux__` branch), recursing on the loop index `i` into the zeroed
read buffer (reads beyond `bytes_read` see 0, as in the zero-filled
64-byte C++ buffer).  The `fuel` argument only bounds the recursion;
the index advances by at least one per iteration, so `fuel = len`
always suffices and the model agrees with the unbounded loop.  An
escape byte is decoded by lookahead: lone escape at end of buffer,
alt-combined key when no `[` follows, alt-`[` when the buffer ends
after the bracket, the four arrow letters, the `1;2`-prefixed shifted
arrows, and any other sequence stops decoding of the whole remainder
(as does any byte at or above 128). -/
def decodeFrom (buffer : List Nat) (len : Nat) : Nat → Nat → List Key
  | 0, _ => []
  | fuel + 1, i =>
    if i < len then
      let c := buffer.getD i 0
      if c = 27 then
        if i = len - 1 then ⟨27, 0⟩ :: decodeFrom buffer len fuel (i + 1)
        else if buffer.getD (i + 1) 0 ≠ 91 then
          ⟨(linuxKeymap (buffer.getD (i + 1) 0)).key, ALT⟩ :: decodeFrom buffer len fuel (i + 2)
        else if i = len - 2 then ⟨91, ALT⟩ :: decodeFrom buffer len fuel (i + 2)
        else
          let c2 := buffer.getD (i + 2) 0
          if c2 = 65 then ⟨arrowUP, 0⟩ :: decodeFrom buffer len fuel (i + 3)
          else if c2 = 66 then ⟨arrowDOWN, 0⟩ :: decodeFrom buffer len fuel (i + 3)
          else if c2 = 68 then ⟨arrowLEFT, 0⟩ :: decodeFrom buffer len fuel (i + 3)
          else if c2 = 67 then ⟨arrowRIGHT, 0⟩ :: decodeFrom buffer len fuel (i + 3)
          else if c2 = 49 ∧ buffer.getD (i + 3) 0 = 59 ∧ buffer.getD (i + 4) 0 = 50 then
            let c5 := buffer.getD (i + 5) 0
            (if c5 = 65 then [⟨arrowUP, SHIFT⟩]
             else if c5 = 66 then [⟨arrowDOWN, SHIFT⟩]
             else if c5 = 68 then [⟨arrowLEFT, SHIFT⟩]
             else if c5 = 67 then [⟨arrowRIGHT, SHIFT⟩]
             else []) ++ decodeFrom buffer len fuel (i + 6)
          else []
      else if c < 128 then linuxKeymap c :: decodeFrom buffer len fuel (i + 1)
      else []
    else []

/-- One poll of `Input::getQueuedKeyEvents` on the byte-stream
platform: decode the whole read buffer from index 0. -/
def getQueuedKeyEvents (buffer : List Nat) : List Key :=
  decodeFrom buffer buffer.length buffer.length 0

/-- C5 (code evaluated at the failing input): in `src/stui.h` the poll
bytes ESC `[` `3` `~` are an unrecognized control sequence — decoding
yields no delete event at all (the claim expects one) — while events
already decoded earlier in the same poll are still returned and only
the remainder is dropped, as shown by the second conjunct. -/
theorem claim5_no_delete_event_for_esc_bracket_3_tilde :
    getQueuedKeyEvents [27, 91, 51, 126] = [] ∧
    getQueuedKeyEvents [97, 27, 91, 51, 126] = [⟨97, 0⟩] := by
  decide

/-- C6: the byte-stream decoder maps ESC `[` `A` to exactly one
unmodified arrow-up event, ESC `[` `1` `;` `2` `A` to exactly one
shift-modified arrow-up event, a lone ESC at the end of the buffer to
one plain escape event, and a poll holding one lowercase letter byte to
one unmodified event with that letter's code. -/
theorem claim6_decoder_maps_escape_sequences :
    getQueuedKeyEvents [27, 91, 65] = [⟨arrowUP, 0⟩] ∧
    getQueuedKeyEvents [27, 91, 49, 59, 50, 65] = [⟨arrowUP, SHIFT⟩] ∧
    getQueuedKeyEvents [27] = [⟨27, 0⟩] ∧
    ∀ c : Nat, 97 ≤ c → c ≤ 122 → getQueuedKeyEvents [c] = [⟨c, 0⟩] := by
  refine ⟨by decide, by decide, by decide, ?_⟩
  intro c h1 h2
  interval_cases c <;> decide

/-- Concrete instance of C6 at the lowercase letter `a` together with
the lone-escape case. -/
theorem claim6_witness :
    getQueuedKeyEvents [97] = [⟨97, 0⟩] ∧ getQueuedKeyEvents [27] = [⟨27, 0⟩] :=
  ⟨claim6_decoder_maps_escape_sequences.2.2.2 97 (by decide) (by decide),
   claim6_decoder_maps_escape_sequences.2.2.1⟩

/-- A shortcut binding (`Input::Shortcut`): a key-event pattern plus a
zero-argument callback, modelled as an opaque identifier recorded when
the callback is invoked. -/
structure Shortcut where
  binding : Key
  callback : Nat
deriving DecidableEq, Repr

/-- Key-event equality test (`Input::compare`): both the key code and
the modifier bitmask must match exactly. -/
def compare (a b : Key) : Bool :=
  a.key == b.key && a.control_states == b.control_states

/-- The inner loop of `Input::processShortcuts` for one event: scan the
whole binding table in order; every matching binding marks the event
consumed and has its callback invoked (recorded in order). -/
def processOne (k : Key) : List Shortcut → Bool × List Nat
  | [] => (false, [])
  | s :: rest =>
    let r := processOne k rest
    (compare k s.binding || r.1, (if compare k s.binding then [s.callback] else []) ++ r.2)

/-- `Input::processShortcuts`: walk the decoded events in arrival
order, test each one against every binding, drop consumed events and
keep the rest in order; the second component is the trace of invoked
callbacks. -/
def processShortcuts (shortcuts : List Shortcut) : List Key → List Key × List Nat
  | [] => ([], [])
  | k :: rest =>
    let pr := processOne k shortcuts
    let r := processShortcuts shortcuts rest
    (if pr.1 then r.1 else k :: r.1, pr.2 ++ r.2)

/-- An event is consumed exactly when some binding matches it. -/
theorem processOne_fst (k : Key) :
    ∀ shortcuts, (processOne k shortcuts).1 = shortcuts.any (fun s => compare k s.binding)
  | [] => rfl
  | s :: rest => by
    simp [processOne, processOne_fst k rest]

/-- The callbacks invoked for one event are exactly those of its
matching bindings, in table order. -/
theorem processOne_snd (k : Key) :
    ∀ shortcuts, (processOne k shortcuts).2 =
      (shortcuts.filter (fun s => compare k s.binding)).map (fun s => s.callback)
  | [] => rfl
  | s :: rest => by
    simp only [processOne, processOne_snd k rest, List.filter_cons]
    by_cases h : compare k s.binding <;> simp [h]

/-- C4: shortcut dispatch tests each decoded event against every
binding; an event with a matching binding is removed from the stream
and the first matching binding's callback is invoked, each matching
event being consumed independently, while every unmatched event
survives unchanged and in order (it is exactly the filtered stream that
reaches text extraction). -/
theorem claim4_shortcut_dispatch (shortcuts : List Shortcut) (events : List Key) :
    (processShortcuts shortcuts events).1 =
      events.filter (fun k => !(shortcuts.any (fun s => compare k s.binding))) ∧
    ∀ k ∈ events, ∀ s, shortcuts.find? (fun s => compare k s.binding) = some s →
      s.callback ∈ (processShortcuts shortcuts events).2 := by
  induction events with
  | nil => exact ⟨rfl, by intro k hk; cases hk⟩
  | cons k rest ih =>
    constructor
    · simp only [processShortcuts, List.filter_cons, processOne_fst]
      by_cases h : shortcuts.any (fun s => compare k s.binding)
      · simp [h, ih.1]
      · simp [h, ih.1]
    · intro k' hk' s hfind
      rcases List.mem_cons.mp hk' with hk'' | hk''
      · subst hk''
        have hp : (fun s => compare k' s.binding) s = true :=
          @List.find?_some Shortcut (fun s => compare k' s.binding) s shortcuts hfind
        have hmem : s ∈ shortcuts.filter (fun s => compare k' s.binding) :=
          List.mem_filter.mpr ⟨List.mem_of_find?_eq_some hfind, hp⟩
        have hcb : s.callback ∈ (processOne k' shortcuts).2 := by
          rw [processOne_snd]
          exact List.mem_map.mpr ⟨s, hmem, rfl⟩
        simp only [processShortcuts]
        exact List.mem_append_left _ hcb
      · have := ih.2 k' hk'' s hfind
        simp only [processShortcuts]
        exact List.mem_append_right _ this

/-- Concrete instance of C4: one binding for the `a` key, an event
stream with two identical `a` events around a `b` event — both `a`
events are consumed (the callback fires) and only `b` survives. -/
theorem claim4_witness :
    (processShortcuts [⟨⟨97, 0⟩, 5⟩] [⟨97, 0⟩, ⟨98, 0⟩, ⟨97, 0⟩]).1 = [⟨98, 0⟩] ∧
    5 ∈ (processShortcuts [⟨⟨97, 0⟩, 5⟩] [⟨97, 0⟩, ⟨98, 0⟩, ⟨97, 0⟩]).2 :=
  ⟨(claim4_shortcut_dispatch [⟨⟨97, 0⟩, 5⟩] [⟨97, 0⟩, ⟨98, 0⟩, ⟨97, 0⟩]).1.trans (by decide),
   (claim4_shortcut_dispatch [⟨⟨97, 0⟩, 5⟩] [⟨97, 0⟩, ⟨98, 0⟩, ⟨97, 0⟩]).2
     ⟨97, 0⟩ (by decide) ⟨⟨97, 0⟩, 5⟩ (by decide)⟩

/-- `Tixel::toANSI`: the ANSI SGR code for each one-hot colour command
half (the `default` arm of the C++ `switch` returns 40). -/
def toANSI (c : Nat) : Nat :=
  if c = 1 then 30
  else if c = 16 then 40
  else if c = 2 then 91
  else if c = 32 then 101
  else if c = 4 then 92
  else if c = 64 then 102
  else if c = 6 then 93
  else if c = 96 then 103
  else if c = 8 then 94
  else if c = 128 then 104
  else if c = 10 then 95
  else if c = 160 then 105
  else if c = 12 then 96
  else if c = 192 then 106
  else if c = 14 then 90
  else if c = 224 then 100
  else if c = 15 then 97
  else if c = 240 then 107
  else 40

/-- The glyph byte emission of `Page::render`: the low byte always,
then one more byte per set high-bit marker (0x80, 0x8000, 0x800000),
least-significant-byte first as in the source. -/
def glyphBytes (chr : Nat) : List Nat :=
  [chr % 256] ++
  (if chr &&& 128 ≠ 0 then [(chr >>> 8) % 256] else []) ++
  (if chr &&& 32768 ≠ 0 then [(chr >>> 16) % 256] else []) ++
  (if chr &&& 8388608 ≠ 0 then [(chr >>> 24) % 256] else [])

/-- One emitted piece of the output stream of `Page::render`: either a
colour-change escape sequence (carrying its SGR code) or the raw glyph
bytes of one cell. -/
inductive OutChunk where
  | colourChange (ansi : Nat)
  | glyph (bytes : List Nat)
deriving DecidableEq, Repr

/-- The encoding loop of `Page::render`: track the active foreground
and background; for each cell mask out its two halves with `FG_WHITE`
(15) and `BG_WHITE` (240), emit a colour change for a half only when it
differs from the tracked state, then emit the cell's glyph bytes. -/
def encodeCells : Nat → Nat → List Tixel → List OutChunk
  | _, _, [] => []
  | fg, bg, t :: rest =>
    let nf := t.colour &&& 15
    let nb := t.colour &&& 240
    (if fg ≠ nf then [OutChunk.colourChange (toANSI nf)] else []) ++
    (if bg ≠ nb then [OutChunk.colourChange (toANSI nb)] else []) ++
    (OutChunk.glyph (glyphBytes t.character) :: encodeCells nf nb rest)

/-- The output stream of `Page::render` for a composited buffer: the
tracked foreground and background start at the unset sentinel
`(ColourCommand)0`. -/
def pageRenderOutput (cells : List Tixel) : List OutChunk := encodeCells 0 0 cells

/-- Discriminator for colour-change chunks. -/
def isColourChange : OutChunk → Bool
  | OutChunk.colourChange _ => true
  | OutChunk.glyph _ => false

/-- Number of colour-change escape sequences in the rendered stream. -/
def colourChangeCount (cells : List Tixel) : Nat :=
  ((pageRenderOutput cells).filter isColourChange).length

/-- Byte realisation of a chunk: a colour change is `ESC [ <digits> m`,
a glyph is its raw bytes. -/
def chunkBytes : OutChunk → List Nat
  | OutChunk.colourChange a => [27, 91] ++ (Nat.toDigits 10 a).map Char.toNat ++ [109]
  | OutChunk.glyph bs => bs

/-- The full byte stream written to the terminal for a buffer. -/
def outputBytes (cells : List Tixel) : List Nat :=
  ((pageRenderOutput cells).map chunkBytes).flatten

/-- Once the tracked state equals the shared colour of every remaining
cell, the encoder emits no further colour change. -/
theorem encodeCells_same_colour (c : Nat) :
    ∀ cells : List Tixel, (∀ t ∈ cells, t.colour = c) →
      (encodeCells (c &&& 15) (c &&& 240) cells).filter isColourChange = [] := by
  intro cells
  induction cells with
  | nil => intro _; rfl
  | cons t rest ih =>
    intro hall
    have ht : t.colour = c := hall t (List.mem_cons_self t rest)
    have h1 : ¬ ((c &&& 15) ≠ (c &&& 15)) := fun h => h rfl
    have h2 : ¬ ((c &&& 240) ≠ (c &&& 240)) := fun h => h rfl
    have ihr := ih fun u hu => hall u (List.mem_cons_of_mem t hu)
    simp only [encodeCells, ht, if_neg h1, if_neg h2, List.nil_append, List.filter_cons]
    simpa [isColourChange] using ihr

/-- Every cell contributes at least one output byte. -/
theorem encodeCells_bytes_length (cells : List Tixel) :
    ∀ fg bg, cells.length ≤ (((encodeCells fg bg cells).map chunkBytes).flatten).length := by
  induction cells with
  | nil => intro fg bg; simp
  | cons t rest ih =>
    intro fg bg
    simp only [encodeCells, List.map_append, List.flatten_append, List.length_append,
      List.map_cons, List.flatten_cons, List.length_cons]
    have h1 : 1 ≤ (chunkBytes (OutChunk.glyph (glyphBytes t.character))).length := by
      simp [chunkBytes, glyphBytes]
    have h2 := ih (t.colour &&& 15) (t.colour &&& 240)
    omega

/-- C7: a composited buffer of N cells all sharing one genuine
foreground/background colour pair costs exactly one colour-change pair
(two escape sequences) independent of N, and zero sequences when the
shared colour equals the unset initial tracked state; and an all-ASCII
buffer of N cells yields an output stream of at least N bytes. -/
theorem claim7_encoder_colour_runs_and_output_length :
    (∀ (cells : List Tixel) (c : Nat),
        0 < cells.length → (∀ t ∈ cells, t.colour = c) →
        (c &&& 15 ≠ 0 → c &&& 240 ≠ 0 → colourChangeCount cells = 2) ∧
        (c = 0 → colourChangeCount cells = 0)) ∧
    (∀ cells : List Tixel, (∀ t ∈ cells, t.character < 128) →
        cells.length ≤ (outputBytes cells).length) := by
  constructor
  · intro cells c hpos hall
    match cells with
    | t :: rest =>
      have ht : t.colour = c := hall t (List.mem_cons_self t rest)
      have hrest : ∀ u ∈ rest, u.colour = c := fun u hu => hall u (List.mem_cons_of_mem t hu)
      have hnil := encodeCells_same_colour c rest hrest
      constructor
      · intro h15 h240
        unfold colourChangeCount pageRenderOutput
        have hne15 : (0 : Nat) ≠ c &&& 15 := fun h => h15 h.symm
        have hne240 : (0 : Nat) ≠ c &&& 240 := fun h => h240 h.symm
        simp only [encodeCells, ht, if_pos hne15, if_pos hne240]
        simp [isColourChange, hnil]
      · intro hc0
        subst hc0
        simp only [Nat.zero_and] at hnil
        unfold colourChangeCount pageRenderOutput
        have hz : ¬ ((0 : Nat) ≠ 0) := fun h => h rfl
        simp only [encodeCells, ht, Nat.zero_and, if_neg hz, List.nil_append, List.filter_cons]
        simpa [isColourChange] using hnil
  · intro cells _
    exact encodeCells_bytes_length cells 0 0

/-- Concrete instance of C7: two cells sharing colour 31
(`FG_WHITE ∣ BG_BLACK`) cost exactly two escape sequences, and their
ASCII glyphs make the stream at least two bytes long. -/
theorem claim7_witness :
    colourChangeCount [⟨65, 31⟩, ⟨66, 31⟩] = 2 ∧
    2 ≤ (outputBytes [⟨65, 31⟩, ⟨66, 31⟩]).length :=
  ⟨((claim7_encoder_colour_runs_and_output_length.1 [⟨65, 31⟩, ⟨66, 31⟩] 31
      (by decide) (by decide)).1 (by decide) (by decide)),
   claim7_encoder_colour_runs_and_output_length.2 [⟨65, 31⟩, ⟨66, 31⟩] (by decide)⟩

/-- The mutable state of a `ListView`: its elements, scroll offset,
selected index, and the height remembered from the last render. -/
structure ListView where
  elements : List String
  scroll : Int
  selected_index : Int
  last_render_height : Int
deriving Repr

/-- `ListView::handleInput`: arrow-down moves the selection down when
one more element exists, scrolling down when the new selection falls
below the rendered window; arrow-up moves it up when above zero,
scrolling up when the new selection lies above the window and the
scroll is positive; any other input changes nothing and is not
consumed.  The modifier argument is unused, as in the source. -/
def listViewHandleInput (s : ListView) (input_character : Nat) (modifiers : Nat) :
    ListView × Bool :=
  if input_character = arrowDOWN ∧ s.selected_index < (s.elements.length : Int) - 1 then
    let sel := s.selected_index + 1
    let scr := if sel - s.scroll ≥ s.last_render_height then s.scroll + 1 else s.scroll
    (⟨s.elements, scr, sel, s.last_render_height⟩, true)
  else if input_character = arrowUP ∧ s.selected_index > 0 then
    let sel := s.selected_index - 1
    let scr := if sel - s.scroll < 0 ∧ s.scroll > 0 then s.scroll - 1 else s.scroll
    (⟨s.elements, scr, sel, s.last_render_height⟩, true)
  else (s, false)

/-- C10: for a `ListView` with non-empty elements, a selected index
inside `[0, elements.size())` and a non-negative scroll, one call to
`handleInput` with any input character and modifiers keeps the selected
index inside the same range and the scroll non-negative. -/
theorem claim10_listview_handleinput_preserves_bounds
    (s : ListView) (input_character modifiers : Nat)
    (hne : 0 < s.elements.length)
    (hlo : 0 ≤ s.selected_index) (hhi : s.selected_index < (s.elements.length : Int))
    (hscr : 0 ≤ s.scroll) :
    0 ≤ (listViewHandleInput s input_character modifiers).1.selected_index ∧
    (listViewHandleInput s input_character modifiers).1.selected_index <
      ((listViewHandleInput s input_character modifiers).1.elements.length : Int) ∧
    0 ≤ (listViewHandleInput s input_character modifiers).1.scroll := by
  unfold listViewHandleInput
  split_ifs with h1 h2 h3 h4 <;> dsimp only <;> omega

/-- Concrete instance of C10: a two-element list with the last element
selected and a one-row window; arrow-down is in range only via the
guard, so the state stays within bounds. -/
theorem claim10_witness :
    0 ≤ (listViewHandleInput ⟨["a", "b"], 0, 1, 1⟩ 18 0).1.selected_index ∧
    (listViewHandleInput ⟨["a", "b"], 0, 1, 1⟩ 18 0).1.selected_index <
      (((listViewHandleInput ⟨["a", "b"], 0, 1, 1⟩ 18 0).1.elements.length : Nat) : Int) ∧
    0 ≤ (listViewHandleInput ⟨["a", "b"], 0, 1, 1⟩ 18 0).1.scroll :=
  claim10_listview_handleinput_preserves_bounds ⟨["a", "b"], 0, 1, 1⟩ 18 0
    (by decide) (by decide) (by decide) (by decide)
